import Mathlib

/-!
Verification of the workflow engine (`src/workflow.py`): a shallow
embedding of `WorkflowEngine` and `SystemOrchestrator`.

Modelling decisions:
* Python `dict`s keyed by strings are embedded as association lists
  (`List (String × α)`) with Python's assignment semantics: assigning an
  existing key replaces its value in place (insertion position preserved),
  assigning a new key appends it (`dictSet`).
* The external world (`uuid.uuid4()` and `datetime.now()`) is embedded as a
  single monotone counter threaded through the computation: every draw
  returns the current counter value and increments it.  `uuid.uuid4()` is
  thus modelled as an injective fresh-identifier supply, and timestamps as
  values of this counter.
* Python values appearing in parameter / result payloads are abstracted
  into a small inductive `Value`; the engine never inspects them.
* An agent is embedded as a record whose `execute_task` field is a pure
  function `Task → TaskResult`; the engine treats agents as external
  capabilities and only calls this one operation.
* The dictionaries built for step outcomes have one of two fixed shapes in
  the source (the "agent not found" shape and the dispatched shape), so a
  `StepOutcome` is an inductive with two constructors; `StepOutcome.keys`
  lists the string keys the source stores in each shape.
-/

set_option autoImplicit false

namespace WorkflowPy

/-- Abstract Python values carried in parameter / result payloads. -/
inductive Value where
  | str (s : String)
  | nat (n : Nat)
  | bool (b : Bool)
  | none
  deriving DecidableEq, Repr

/-- Python dict assignment `d[k] = v`: replace in place if the key exists,
append otherwise. -/
def dictSet {α : Type} (d : List (String × α)) (k : String) (v : α) :
    List (String × α) :=
  match d with
  | [] => [(k, v)]
  | (k', v') :: rest =>
      if k' = k then (k, v) :: rest else (k', v') :: dictSet rest k v

/-- Python dict lookup `d[k]` / `d.get(k)`: the value at the first matching
key. -/
def dictGet? {α : Type} (d : List (String × α)) (k : String) : Option α :=
  match d with
  | [] => Option.none
  | (k', v') :: rest => if k' = k then some v' else dictGet? rest k

/-- Python `k in d`. -/
def dictContains {α : Type} (d : List (String × α)) (k : String) : Bool :=
  match d with
  | [] => false
  | (k', _) :: rest => k' = k || dictContains rest k

/-- Python `list(d.keys())`, in insertion order. -/
def dictKeys {α : Type} (d : List (String × α)) : List String :=
  d.map Prod.fst

/-- `TaskStatus` from `src/adk_core`; only `PENDING` is used here. -/
inductive TaskStatus where
  | pending
  deriving DecidableEq, Repr

/-- A step descriptor: in the source a step is a plain dict read with
`step.get("agent_id")`, `step.get("task_type")` and
`step.get("parameters", {})`, so each field may be absent. -/
structure Step where
  agent_id : Option String
  task_type : Option String
  parameters : Option (List (String × Value))
  deriving DecidableEq, Repr

/-- The `Task` record handed to an agent.  `task_id` is a draw from the
fresh-identifier supply (modelling `str(uuid.uuid4())`). -/
structure Task where
  task_id : Nat
  task_type : Option String
  status : TaskStatus
  parameters : List (String × Value)
  deriving DecidableEq, Repr

/-- The result returned by an agent's `execute_task`. -/
structure TaskResult where
  success : Bool
  result : Value
  execution_time : Value
  deriving DecidableEq, Repr

/-- An external agent: an id, a display name, its one capability
`execute_task`, and an opaque status used by `get_system_report`. -/
structure Agent where
  agent_id : String
  name : String
  execute_task : Task → TaskResult
  get_status : Value

/-- A stored workflow definition (the dict built by `define_workflow`). -/
structure Workflow where
  workflow_id : String
  name : String
  steps : List Step
  created_at : Nat
  deriving DecidableEq, Repr

/-- One entry of the `execution["steps"]` list.  The source appends dicts of
exactly two shapes: `{agent_id, status: "failed", error: "Agent not found"}`
when the agent is absent, and
`{agent_id, task_type, status, result, execution_time}` after dispatch. -/
inductive StepOutcome where
  | agentMissing (agent_id : Option String)
  | dispatched (agent_id : String) (task_type : Option String)
      (status : String) (result : Value) (execution_time : Value)
  deriving DecidableEq, Repr

/-- The string keys present in the outcome dict, as the source writes them. -/
def StepOutcome.keys : StepOutcome → List String
  | .agentMissing _ => ["agent_id", "status", "error"]
  | .dispatched _ _ _ _ _ =>
      ["agent_id", "task_type", "status", "result", "execution_time"]

/-- The `"status"` entry of the outcome dict. -/
def StepOutcome.status : StepOutcome → String
  | .agentMissing _ => "failed"
  | .dispatched _ _ s _ _ => s

/-- The `"error"` entry of the outcome dict, when present. -/
def StepOutcome.error : StepOutcome → Option String
  | .agentMissing _ => some "Agent not found"
  | .dispatched _ _ _ _ _ => Option.none

/-- An `ExecutionRecord`: the `execution` dict appended to
`execution_history`. -/
structure Execution where
  workflow_id : String
  started_at : Nat
  steps : List StepOutcome
  completed_at : Nat
  deriving DecidableEq, Repr

/-- The mutable state of a `WorkflowEngine` instance. -/
structure EngineState where
  workflows : List (String × Workflow)
  execution_history : List Execution

/-- `WorkflowEngine.__init__`. -/
def initEngine : EngineState := ⟨[], []⟩

/-- `WorkflowEngine.define_workflow`: build the workflow dict (drawing a
creation timestamp from the clock) and store it under `workflow_id`,
overwriting any previous entry.  Returns the new state, the advanced
counter, and the returned workflow dict. -/
def define_workflow (st : EngineState) (clock : Nat) (workflow_id name : String)
    (steps : List Step) : EngineState × Nat × Workflow :=
  let wf : Workflow := ⟨workflow_id, name, steps, clock⟩
  (⟨dictSet st.workflows workflow_id wf, st.execution_history⟩, clock + 1, wf)

/-- The agent lookup of the step loop: `step.get("agent_id")` followed by the
`agent_id not in agents` test (a `None` agent id is never a key of the
string-keyed `agents` dict). -/
def agentLookup (agents : List (String × Agent)) :
    Option String → Option Agent
  | Option.none => Option.none
  | some aid => dictGet? agents aid

/-- The `Task` the loop constructs for a step at a given supply value. -/
def stepTask (supply : Nat) (step : Step) : Task :=
  ⟨supply, step.task_type, TaskStatus.pending, step.parameters.getD []⟩

/-- One iteration of the step loop: look up the agent, and either record an
"Agent not found" failure (drawing nothing from the supply) or construct a
task, dispatch it and record the result.  Also returns the task handed to
the agent, when one was. -/
def runStep (agents : List (String × Agent)) (supply : Nat) (step : Step) :
    Nat × StepOutcome × Option Task :=
  match agentLookup agents step.agent_id with
  | Option.none => (supply, .agentMissing step.agent_id, Option.none)
  | some agent =>
      let task := stepTask supply step
      let r := agent.execute_task task
      (supply + 1,
       .dispatched (step.agent_id.getD "") step.task_type
         (if r.success then "completed" else "failed") r.result
         r.execution_time,
       some task)

/-- The step loop of `execute_workflow`: fold `runStep` over the steps in
declaration order, collecting the outcomes and the dispatched tasks. -/
def runSteps (agents : List (String × Agent)) (supply : Nat) :
    List Step → Nat × List StepOutcome × List Task
  | [] => (supply, [], [])
  | s :: rest =>
      let r := runStep agents supply s
      let rs := runSteps agents r.1 rest
      (rs.1, r.2.1 :: rs.2.1, r.2.2.toList ++ rs.2.2)

/-- The result of `execute_workflow`: either the error dict
`{"success": False, "error": "Workflow not found"}` or the execution
record. -/
inductive ExecResult where
  | notFound
  | record (e : Execution)
  deriving DecidableEq, Repr

/-- `WorkflowEngine.execute_workflow`: return the error dict if the id is
unknown; otherwise draw a start timestamp, run every step in order, draw a
completion timestamp, append the execution record to the history and return
it. -/
def execute_workflow (st : EngineState) (supply : Nat) (workflow_id : String)
    (agents : List (String × Agent)) : EngineState × Nat × ExecResult :=
  match dictGet? st.workflows workflow_id with
  | Option.none => (st, supply, ExecResult.notFound)
  | some wf =>
      let started := supply
      let r := runSteps agents (supply + 1) wf.steps
      let exec : Execution := ⟨workflow_id, started, r.2.1, r.1⟩
      (⟨st.workflows, st.execution_history ++ [exec]⟩, r.1 + 1,
       ExecResult.record exec)

/-- The dict returned by `get_stats`. -/
structure Stats where
  workflows_defined : Nat
  workflows_executed : Nat
  workflows : List String
  deriving DecidableEq, Repr

/-- `WorkflowEngine.get_stats`. -/
def get_stats (st : EngineState) : Stats :=
  ⟨st.workflows.length, st.execution_history.length, dictKeys st.workflows⟩

/-- The mutable state of a `SystemOrchestrator` instance. -/
structure OrchestratorState where
  agents : List (String × Agent)
  workflow_engine : EngineState

/-- `SystemOrchestrator.__init__`. -/
def initOrchestrator : OrchestratorState := ⟨[], initEngine⟩

/-- `SystemOrchestrator.register_agent`: store the agent under its own
`agent_id` and return `True`. -/
def register_agent (st : OrchestratorState) (agent : Agent) :
    OrchestratorState × Bool :=
  (⟨dictSet st.agents agent.agent_id agent, st.workflow_engine⟩, true)

/-! ## Lemmas about the dict embedding -/

theorem dictGet?_dictSet_self {α : Type} (d : List (String × α)) (k : String)
    (v : α) : dictGet? (dictSet d k v) k = some v := by
  induction d with
  | nil => simp [dictSet, dictGet?]
  | cons p rest ih =>
      by_cases h : p.1 = k <;> simp [dictSet, dictGet?, h, ih]

theorem dictGet?_dictSet_ne {α : Type} (d : List (String × α)) (k k' : String)
    (v : α) (h : k ≠ k') : dictGet? (dictSet d k v) k' = dictGet? d k' := by
  induction d with
  | nil => simp [dictSet, dictGet?, h]
  | cons p rest ih =>
      by_cases hp : p.1 = k
      · simp [dictSet, dictGet?, hp, h]
      · simp only [dictSet, if_neg hp, dictGet?]
        by_cases hp' : p.1 = k' <;> simp [hp', ih]

theorem dictKeys_dictSet_of_contains {α : Type} (d : List (String × α))
    (k : String) (v : α) (h : dictContains d k = true) :
    dictKeys (dictSet d k v) = dictKeys d := by
  induction d with
  | nil => simp [dictContains] at h
  | cons p rest ih =>
      by_cases hp : p.1 = k
      · simp [dictSet, hp, dictKeys]
      · simp only [dictContains, hp, decide_eq_true_eq, Bool.false_or,
          decide_eq_false hp] at h
        simp only [dictSet, if_neg hp, dictKeys, List.map_cons]
        have := ih h
        simp [dictKeys] at this
        simp [this]

theorem dictKeys_dictSet_of_not_contains {α : Type} (d : List (String × α))
    (k : String) (v : α) (h : dictContains d k = false) :
    dictKeys (dictSet d k v) = dictKeys d ++ [k] := by
  induction d with
  | nil => simp [dictSet, dictKeys]
  | cons p rest ih =>
      simp only [dictContains, Bool.or_eq_false_iff, decide_eq_false_iff_not]
        at h
      simp only [dictSet, if_neg h.1, dictKeys, List.map_cons]
      have := ih h.2
      simp [dictKeys] at this
      simp [this]

theorem length_dictSet_of_contains {α : Type} (d : List (String × α))
    (k : String) (v : α) (h : dictContains d k = true) :
    (dictSet d k v).length = d.length := by
  have := dictKeys_dictSet_of_contains d k v h
  have h1 : (dictKeys (dictSet d k v)).length = (dictKeys d).length := by
    rw [this]
  simpa [dictKeys] using h1

theorem length_dictSet_of_not_contains {α : Type} (d : List (String × α))
    (k : String) (v : α) (h : dictContains d k = false) :
    (dictSet d k v).length = d.length + 1 := by
  have := dictKeys_dictSet_of_not_contains d k v h
  have h1 : (dictKeys (dictSet d k v)).length = (dictKeys d ++ [k]).length := by
    rw [this]
  simpa [dictKeys] using h1

theorem dictContains_eq_isSome {α : Type} (d : List (String × α)) (k : String) :
    dictContains d k = (dictGet? d k).isSome := by
  induction d with
  | nil => simp [dictContains, dictGet?]
  | cons p rest ih =>
      by_cases hp : p.1 = k <;> simp [dictContains, dictGet?, hp, ih]

/-! ## Lemmas about the step loop -/

@[simp]
theorem runSteps_nil (agents : List (String × Agent)) (c : Nat) :
    runSteps agents c [] = (c, [], []) := rfl

theorem runSteps_cons (agents : List (String × Agent)) (c : Nat) (s : Step)
    (rest : List Step) :
    runSteps agents c (s :: rest) =
      ((runSteps agents (runStep agents c s).1 rest).1,
       (runStep agents c s).2.1 ::
         (runSteps agents (runStep agents c s).1 rest).2.1,
       (runStep agents c s).2.2.toList ++
         (runSteps agents (runStep agents c s).1 rest).2.2) := rfl

/-- Each run of the loop records exactly one outcome per step. -/
theorem runSteps_length (agents : List (String × Agent)) (c : Nat)
    (ss : List Step) : (runSteps agents c ss).2.1.length = ss.length := by
  induction ss generalizing c with
  | nil => rfl
  | cons s rest ih => simp [runSteps_cons, ih]

theorem runStep_supply_le (agents : List (String × Agent)) (c : Nat)
    (s : Step) : c ≤ (runStep agents c s).1 := by
  unfold runStep
  cases agentLookup agents s.agent_id <;> simp

theorem runSteps_supply_le (agents : List (String × Agent)) (c : Nat)
    (ss : List Step) : c ≤ (runSteps agents c ss).1 := by
  induction ss generalizing c with
  | nil => simp
  | cons s rest ih =>
      calc c ≤ (runStep agents c s).1 := runStep_supply_le agents c s
        _ ≤ _ := by simpa [runSteps_cons] using ih (runStep agents c s).1

/-- Every task dispatched by the loop draws its id from the supply interval
consumed by the loop. -/
theorem runSteps_task_id_bounds (agents : List (String × Agent)) (c : Nat)
    (ss : List Step) :
    ∀ t ∈ (runSteps agents c ss).2.2,
      c ≤ t.task_id ∧ t.task_id < (runSteps agents c ss).1 := by
  induction ss generalizing c with
  | nil => simp
  | cons s rest ih =>
      intro t ht
      simp only [runSteps_cons, List.mem_append] at ht
      rcases ht with ht | ht
      · unfold runStep at ht
        cases hl : agentLookup agents s.agent_id with
        | none => simp [hl] at ht
        | some agent =>
            simp only [hl, Option.toList_some, List.mem_singleton] at ht
            subst ht
            have hsup : (runSteps agents c (s :: rest)).1 =
                (runSteps agents (runStep agents c s).1 rest).1 := by
              rw [runSteps_cons]
            have hstep : (runStep agents c s).1 = c + 1 := by
              unfold runStep; simp [hl]
            constructor
            · simp [stepTask]
            · rw [hsup, hstep]
              simp only [stepTask]
              exact lt_of_lt_of_le (Nat.lt_succ_self c)
                (runSteps_supply_le agents (c + 1) rest)
      · have := ih (runStep agents c s).1 t ht
        exact ⟨le_trans (runStep_supply_le agents c s) this.1,
          by simpa [runSteps_cons] using this.2⟩

/-- The task ids handed out in one run are pairwise distinct. -/
theorem runSteps_task_ids_nodup (agents : List (String × Agent)) (c : Nat)
    (ss : List Step) :
    ((runSteps agents c ss).2.2.map Task.task_id).Nodup := by
  induction ss generalizing c with
  | nil => simp
  | cons s rest ih =>
      simp only [runSteps_cons, List.map_append, List.nodup_append]
      refine ⟨?_, ih (runStep agents c s).1, ?_⟩
      · unfold runStep
        cases agentLookup agents s.agent_id <;> simp
      · intro x hx hy
        simp only [List.mem_map] at hx hy
        obtain ⟨t, ht, rfl⟩ := hx
        obtain ⟨u, hu, hid⟩ := hy
        unfold runStep at ht
        cases hl : agentLookup agents s.agent_id with
        | none => simp [hl] at ht
        | some agent =>
            simp only [hl, Option.toList_some, List.mem_singleton] at ht
            subst ht
            have hb := runSteps_task_id_bounds agents (runStep agents c s).1
              rest u hu
            have hstep : (runStep agents c s).1 = c + 1 := by
              unfold runStep; simp [hl]
            rw [hstep] at hb
            simp only [stepTask] at hid
            omega

/-- If the i-th step of a run is dispatched (its agent exists), then the
task constructed for it — `stepTask` at the supply value threaded to that
step — is among the tasks the run hands to agents. -/
theorem runSteps_task_mem (agents : List (String × Agent)) (c : Nat)
    (ss : List Step) (i : Nat) (hi : i < ss.length) (agent : Agent)
    (h : agentLookup agents (ss.get ⟨i, hi⟩).agent_id = some agent) :
    stepTask (runSteps agents c (ss.take i)).1 (ss.get ⟨i, hi⟩) ∈
      (runSteps agents c ss).2.2 := by
  induction ss generalizing c i with
  | nil => cases hi
  | cons s rest ih =>
      cases i with
      | zero =>
          have h' : agentLookup agents s.agent_id = some agent := h
          show stepTask c s ∈ (runSteps agents c (s :: rest)).2.2
          rw [runSteps_cons]
          unfold runStep
          rw [h']
          simp
      | succ j =>
          have hj : j < rest.length := by simpa using hi
          have h' : agentLookup agents (rest.get ⟨j, hj⟩).agent_id =
              some agent := h
          show stepTask
              (runSteps agents c (s :: rest.take j)).1 (rest.get ⟨j, hj⟩) ∈
            (runSteps agents c (s :: rest)).2.2
          rw [runSteps_cons, runSteps_cons]
          exact List.mem_append_right _ (ih (runStep agents c s).1 j hj h')

/-- The i-th recorded outcome is exactly what `runStep` produces for the
i-th declared step, at the supply value reached after the first i steps. -/
theorem runSteps_get? (agents : List (String × Agent)) (c : Nat)
    (ss : List Step) (i : Nat) (hi : i < ss.length) :
    (runSteps agents c ss).2.1.get? i =
      some (runStep agents (runSteps agents c (ss.take i)).1
        (ss.get ⟨i, hi⟩)).2.1 := by
  induction ss generalizing c i with
  | nil => cases hi
  | cons s rest ih =>
      cases i with
      | zero => simp [runSteps_cons]
      | succ j =>
          have hj : j < rest.length := by simpa using hi
          simpa [runSteps_cons] using ih (runStep agents c s).1 j hj

/-- Every status the loop records is either `"completed"` or `"failed"`. -/
theorem runSteps_status_mem (agents : List (String × Agent)) (c : Nat)
    (ss : List Step) :
    ∀ o ∈ (runSteps agents c ss).2.1,
      o.status = "completed" ∨ o.status = "failed" := by
  induction ss generalizing c with
  | nil => simp
  | cons s rest ih =>
      intro o ho
      simp only [runSteps_cons, List.mem_cons] at ho
      rcases ho with rfl | ho
      · unfold runStep
        cases agentLookup agents s.agent_id with
        | none => right; rfl
        | some agent =>
            simp only [StepOutcome.status]
            cases (agent.execute_task (stepTask c s)).success <;> simp
      · exact ih (runStep agents c s).1 o ho

/-- Every dispatched task has initial status `PENDING` and carries the task
type and parameters of some step of the run (`{}` when the step declares no
parameters). -/
theorem runSteps_task_fields (agents : List (String × Agent)) (c : Nat)
    (ss : List Step) :
    ∀ t ∈ (runSteps agents c ss).2.2,
      t.status = TaskStatus.pending ∧
      ∃ s ∈ ss, t.task_type = s.task_type ∧
        t.parameters = s.parameters.getD [] := by
  induction ss generalizing c with
  | nil => simp
  | cons s rest ih =>
      intro t ht
      simp only [runSteps_cons, List.mem_append] at ht
      rcases ht with ht | ht
      · unfold runStep at ht
        cases hl : agentLookup agents s.agent_id with
        | none => simp [hl] at ht
        | some agent =>
            simp only [hl, Option.toList_some, List.mem_singleton] at ht
            subst ht
            exact ⟨rfl, s, List.mem_cons_self s rest, rfl, rfl⟩
      · obtain ⟨h1, s', hs', h2⟩ := ih (runStep agents c s).1 t ht
        exact ⟨h1, s', List.mem_cons_of_mem s hs', h2⟩

/-! ## Concrete fixtures for witnesses and counterexamples -/

/-- A step targeting agent `"a1"`. -/
def wfStepA : Step := ⟨some "a1", some "t1", Option.none⟩

/-- A step targeting agent `"a2"`. -/
def wfStepB : Step := ⟨some "a2", some "t2", Option.none⟩

/-- A successful task result. -/
def okResult : TaskResult := ⟨true, Value.str "ok", Value.nat 5⟩

/-- A concrete agent with id `"a2"`. -/
def agentA2 : Agent := ⟨"a2", "Agent Two", fun _ => okResult, Value.str "idle"⟩

/-- A second agent with the same id `"a2"` and a different name. -/
def agentA2v2 : Agent :=
  ⟨"a2", "Agent Two v2", fun _ => okResult, Value.str "idle"⟩

/-- An agents map holding only `"a2"`. -/
def oneAgent : List (String × Agent) := [("a2", agentA2)]

/-- An engine state with one workflow `"W1"` whose single step targets the
absent agent `"a1"`. -/
def engW1 : EngineState := (define_workflow initEngine 0 "W1" "wf one" [wfStepA]).1

/-- The engine state after defining `"W1"` twice, with different steps. -/
def defineTwiceState : EngineState :=
  (define_workflow engW1 1 "W1" "wf one again" [wfStepB]).1

/-- An orchestrator state with `agentA2` registered. -/
def orch1 : OrchestratorState := (register_agent initOrchestrator agentA2).1

/-! ## Claims -/

/-- C1 counterexample: the claim says a second `define` with an id already
in the store fails with `DuplicateWorkflowError` and leaves the originally
stored definition's steps unchanged.  The source's `define_workflow` has no
duplicate check and no failure path at all: defining `"W1"` with steps
`[wfStepA]` and then again with steps `[wfStepB]` succeeds, and afterwards
the stored steps are `[wfStepB]`, not the original `[wfStepA]`. -/
theorem C1_counterexample :
    (dictGet? defineTwiceState.workflows "W1").map Workflow.steps =
        some [wfStepB] ∧
      [wfStepB] ≠ [wfStepA] := ⟨rfl, by decide⟩

/-- C1 (amended): `define_workflow` never fails; calling it with an id
already in the store silently overwrites the stored definition (last write
wins): afterwards the store maps the id to the new definition (the new
call's name, steps and timestamp), and the execution history is
untouched. -/
theorem C1_define_overwrites (st : EngineState) (clock : Nat)
    (id name : String) (steps : List Step) :
    dictGet? (define_workflow st clock id name steps).1.workflows id =
        some ⟨id, name, steps, clock⟩ ∧
      (define_workflow st clock id name steps).2.2 = ⟨id, name, steps, clock⟩ ∧
      (define_workflow st clock id name steps).1.execution_history =
        st.execution_history :=
  ⟨dictGet?_dictSet_self _ _ _, rfl, rfl⟩

/-- C2: executing an unknown workflow id returns the
`{"success": False, "error": "Workflow not found"}` result with the engine
state (including the execution history) and the external supply completely
unchanged — no step runs and nothing is appended to the ledger; and this is
the only run-aborting failure: for every id that is in the store the call
completes and appends exactly one execution record. -/
theorem C2_not_found_aborts (st : EngineState) (supply : Nat) (id : String)
    (agents : List (String × Agent)) :
    (dictContains st.workflows id = false →
      execute_workflow st supply id agents = (st, supply, ExecResult.notFound)) ∧
    (dictContains st.workflows id = true →
      ∃ e, (execute_workflow st supply id agents).2.2 = ExecResult.record e ∧
        (execute_workflow st supply id agents).1.execution_history =
          st.execution_history ++ [e]) := by
  rw [dictContains_eq_isSome]
  unfold execute_workflow
  cases h : dictGet? st.workflows id with
  | none => exact ⟨fun _ => rfl, by simp⟩
  | some wf =>
      refine ⟨by simp, fun _ => ⟨_, rfl, rfl⟩⟩

/-- C2 witness: both branches at concrete inputs. -/
theorem C2_witness :
    (execute_workflow initEngine 0 "missing" [] =
      (initEngine, 0, ExecResult.notFound)) ∧
    ∃ e, (execute_workflow engW1 1 "W1" []).2.2 = ExecResult.record e ∧
      (execute_workflow engW1 1 "W1" []).1.execution_history =
        engW1.execution_history ++ [e] :=
  ⟨(C2_not_found_aborts initEngine 0 "missing" []).1 rfl,
   (C2_not_found_aborts engW1 1 "W1" []).2 rfl⟩

/-- C3: a step whose target agent id is not in the agents map does not
abort the run: the loop records a `StepOutcome` whose status is `"failed"`
and whose error is `"Agent not found"` for that step, draws nothing from
the supply, and the remaining steps are executed exactly as they would have
been (same outcomes, same dispatched tasks, same final supply). -/
theorem C3_missing_agent_continues (agents : List (String × Agent)) (c : Nat)
    (s : Step) (rest : List Step)
    (h : agentLookup agents s.agent_id = Option.none) :
    runSteps agents c (s :: rest) =
      ((runSteps agents c rest).1,
       StepOutcome.agentMissing s.agent_id :: (runSteps agents c rest).2.1,
       (runSteps agents c rest).2.2) ∧
      (StepOutcome.agentMissing s.agent_id).status = "failed" ∧
      (StepOutcome.agentMissing s.agent_id).error = some "Agent not found" := by
  refine ⟨?_, rfl, rfl⟩
  simp [runSteps_cons, runStep, h]

/-- C3 witness: agent `"a1"` is absent from `oneAgent`; the step targeting
it fails but the following step (whose agent exists) still runs. -/
theorem C3_witness :
    agentLookup oneAgent wfStepA.agent_id = Option.none ∧
    (runSteps oneAgent 0 [wfStepA, wfStepB] =
      ((runSteps oneAgent 0 [wfStepB]).1,
       StepOutcome.agentMissing wfStepA.agent_id ::
         (runSteps oneAgent 0 [wfStepB]).2.1,
       (runSteps oneAgent 0 [wfStepB]).2.2) ∧
      (StepOutcome.agentMissing wfStepA.agent_id).status = "failed" ∧
      (StepOutcome.agentMissing wfStepA.agent_id).error =
        some "Agent not found") :=
  ⟨rfl, C3_missing_agent_continues oneAgent 0 wfStepA [wfStepB] rfl⟩

/-- C4: executing a stored workflow runs its steps sequentially in
declaration order: the returned execution record holds exactly one outcome
per declared step, and the i-th outcome is precisely what the loop body
produces for the i-th declared step at the supply value reached after the
first i steps. -/
theorem C4_sequential_one_outcome_per_step (st : EngineState) (supply : Nat)
    (id : String) (agents : List (String × Agent)) (wf : Workflow)
    (h : dictGet? st.workflows id = some wf) :
    ∃ e, (execute_workflow st supply id agents).2.2 = ExecResult.record e ∧
      e.steps.length = wf.steps.length ∧
      ∀ i (hi : i < wf.steps.length),
        e.steps.get? i =
          some (runStep agents
            (runSteps agents (supply + 1) (wf.steps.take i)).1
            (wf.steps.get ⟨i, hi⟩)).2.1 := by
  refine ⟨⟨id, supply, (runSteps agents (supply + 1) wf.steps).2.1,
    (runSteps agents (supply + 1) wf.steps).1⟩, ?_, ?_, ?_⟩
  · unfold execute_workflow
    rw [h]
  · exact runSteps_length agents (supply + 1) wf.steps
  · intro i hi
    exact runSteps_get? agents (supply + 1) wf.steps i hi

/-- C4 witness: executing `"W1"` (one declared step) yields a record with
exactly one outcome, matching the loop body on that step. -/
theorem C4_witness :
    dictGet? engW1.workflows "W1" =
        some ⟨"W1", "wf one", [wfStepA], 0⟩ ∧
    ∃ e, (execute_workflow engW1 5 "W1" oneAgent).2.2 = ExecResult.record e ∧
      e.steps.length = ([wfStepA] : List Step).length ∧
      ∀ i (hi : i < ([wfStepA] : List Step).length),
        e.steps.get? i =
          some (runStep oneAgent
            (runSteps oneAgent 6 (([wfStepA] : List Step).take i)).1
            (([wfStepA] : List Step).get ⟨i, hi⟩)).2.1 :=
  ⟨rfl, C4_sequential_one_outcome_per_step engW1 5 "W1" oneAgent
    ⟨"W1", "wf one", [wfStepA], 0⟩ rfl⟩

/-- C5: `execute_workflow` never mutates the workflow store: for every
state, supply, id and agents map (known id or not), the `workflows` dict —
hence every stored definition's id, name, steps and creation timestamp —
is identical before and after the call. -/
theorem C5_execute_preserves_store (st : EngineState) (supply : Nat)
    (id : String) (agents : List (String × Agent)) :
    (execute_workflow st supply id agents).1.workflows = st.workflows := by
  unfold execute_workflow
  cases dictGet? st.workflows id <;> rfl

/-- C6: every execution of a stored workflow appends exactly one record to
the ledger — the new history is the old one with one record appended, so
every previously appended record is untouched at its index; re-executing
the same id therefore yields one further, independent record per call. -/
theorem C6_append_only_ledger (st : EngineState) (supply : Nat) (id : String)
    (agents : List (String × Agent))
    (h : dictContains st.workflows id = true) :
    ∃ e, (execute_workflow st supply id agents).1.execution_history =
        st.execution_history ++ [e] ∧
      (execute_workflow st supply id agents).2.2 = ExecResult.record e ∧
      ∀ i, i < st.execution_history.length →
        (execute_workflow st supply id agents).1.execution_history.get? i =
          st.execution_history.get? i := by
  rw [dictContains_eq_isSome] at h
  unfold execute_workflow
  cases hg : dictGet? st.workflows id with
  | none => rw [hg] at h; simp at h
  | some wf =>
      refine ⟨_, rfl, rfl, ?_⟩
      intro i hi
      exact List.get?_append hi

/-- C6 witness: executing `"W1"` on `engW1` appends one record. -/
theorem C6_witness :
    dictContains engW1.workflows "W1" = true ∧
    ∃ e, (execute_workflow engW1 1 "W1" oneAgent).1.execution_history =
        engW1.execution_history ++ [e] ∧
      (execute_workflow engW1 1 "W1" oneAgent).2.2 = ExecResult.record e ∧
      ∀ i, i < engW1.execution_history.length →
        (execute_workflow engW1 1 "W1" oneAgent).1.execution_history.get? i =
          engW1.execution_history.get? i :=
  ⟨rfl, C6_append_only_ledger engW1 1 "W1" oneAgent rfl⟩

/-- C7 counterexample: the claim says each dispatched step's recorded
outcome "contains the step id".  The source's step dicts carry no step
identifier at all (only agent_id, task_type, parameters), and the outcome
dict appended after a dispatch has exactly the keys agent_id, task_type,
status, result, execution_time — none of them a step id.  Concretely,
dispatching `wfStepB` to `agentA2` records an outcome with no `"step_id"`
key. -/
theorem C7_counterexample :
    (runSteps oneAgent 0 [wfStepB]).2.1 =
      [StepOutcome.dispatched "a2" (some "t2") "completed" (Value.str "ok")
        (Value.nat 5)] ∧
    (StepOutcome.dispatched "a2" (some "t2") "completed" (Value.str "ok")
        (Value.nat 5)).keys =
      ["agent_id", "task_type", "status", "result", "execution_time"] ∧
    "step_id" ∉ (StepOutcome.dispatched "a2" (some "t2") "completed"
        (Value.str "ok") (Value.nat 5)).keys :=
  ⟨rfl, rfl, by decide⟩

/-- C7 (amended): for every step dispatched to an agent, the recorded
outcome has status `"completed"` exactly when the agent's `TaskResult` has
`success` true and `"failed"` otherwise; it records the step's agent id and
task type (the code keeps no separate step id) together with the result
payload and the execution duration (`execution_time` key) regardless of
outcome; and every status the loop ever records is `"completed"` or
`"failed"` — a subset of the spec's {completed, failed, skipped}. -/
theorem C7_dispatched_outcome (agents : List (String × Agent)) (c : Nat)
    (s : Step) (agent : Agent)
    (h : agentLookup agents s.agent_id = some agent) :
    (runStep agents c s).2.1 =
      StepOutcome.dispatched (s.agent_id.getD "") s.task_type
        (if (agent.execute_task (stepTask c s)).success then "completed"
         else "failed")
        (agent.execute_task (stepTask c s)).result
        (agent.execute_task (stepTask c s)).execution_time ∧
    "execution_time" ∈ (runStep agents c s).2.1.keys ∧
    "agent_id" ∈ (runStep agents c s).2.1.keys ∧
    "task_type" ∈ (runStep agents c s).2.1.keys ∧
    ((runStep agents c s).2.1.status = "completed" ↔
      (agent.execute_task (stepTask c s)).success = true) ∧
    (∀ (ags : List (String × Agent)) (c' : Nat) (ss : List Step),
      ∀ o ∈ (runSteps ags c' ss).2.1,
        o.status = "completed" ∨ o.status = "failed") := by
  have hr : runStep agents c s =
      (c + 1,
       StepOutcome.dispatched (s.agent_id.getD "") s.task_type
         (if (agent.execute_task (stepTask c s)).success then "completed"
          else "failed")
         (agent.execute_task (stepTask c s)).result
         (agent.execute_task (stepTask c s)).execution_time,
       some (stepTask c s)) := by
    unfold runStep
    rw [h]
  rw [hr]
  refine ⟨rfl, ?_, ?_, ?_, ?_, runSteps_status_mem⟩
  · simp [StepOutcome.keys]
  · simp [StepOutcome.keys]
  · simp [StepOutcome.keys]
  · cases hs : (agent.execute_task (stepTask c s)).success <;>
      simp [StepOutcome.status, hs]

/-- C7 witness: dispatching `wfStepB` to `agentA2`. -/
theorem C7_witness :
    agentLookup oneAgent wfStepB.agent_id = some agentA2 ∧
    ((runStep oneAgent 0 wfStepB).2.1 =
      StepOutcome.dispatched (wfStepB.agent_id.getD "") wfStepB.task_type
        (if (agentA2.execute_task (stepTask 0 wfStepB)).success then
          "completed" else "failed")
        (agentA2.execute_task (stepTask 0 wfStepB)).result
        (agentA2.execute_task (stepTask 0 wfStepB)).execution_time ∧
    "execution_time" ∈ (runStep oneAgent 0 wfStepB).2.1.keys ∧
    "agent_id" ∈ (runStep oneAgent 0 wfStepB).2.1.keys ∧
    "task_type" ∈ (runStep oneAgent 0 wfStepB).2.1.keys ∧
    ((runStep oneAgent 0 wfStepB).2.1.status = "completed" ↔
      (agentA2.execute_task (stepTask 0 wfStepB)).success = true) ∧
    (∀ (ags : List (String × Agent)) (c' : Nat) (ss : List Step),
      ∀ o ∈ (runSteps ags c' ss).2.1,
        o.status = "completed" ∨ o.status = "failed")) :=
  ⟨rfl, C7_dispatched_outcome oneAgent 0 wfStepB agentA2 rfl⟩

/-- C8: `get_stats` reports the number of stored definitions, the number of
ledger entries, and the stored definition ids in insertion order; the
insertion-order reading is witnessed against `define_workflow`: defining a
fresh id appends that id at the end of the reported list, while redefining
an existing id leaves the reported id list unchanged (the entry keeps its
position). -/
theorem C8_get_stats (st : EngineState) (clock : Nat) (id name : String)
    (steps : List Step) :
    (get_stats st).workflows_defined = st.workflows.length ∧
    (get_stats st).workflows_executed = st.execution_history.length ∧
    (get_stats st).workflows = dictKeys st.workflows ∧
    (dictContains st.workflows id = false →
      (get_stats (define_workflow st clock id name steps).1).workflows =
        (get_stats st).workflows ++ [id]) ∧
    (dictContains st.workflows id = true →
      (get_stats (define_workflow st clock id name steps).1).workflows =
        (get_stats st).workflows) :=
  ⟨rfl, rfl, rfl,
   fun h => dictKeys_dictSet_of_not_contains st.workflows id _ h,
   fun h => dictKeys_dictSet_of_contains st.workflows id _ h⟩

/-- C8 witness: on `engW1`, the counts and the id list are as stored;
defining fresh `"W2"` appends it, redefining `"W1"` changes nothing. -/
theorem C8_witness :
    ((get_stats engW1).workflows_defined = engW1.workflows.length ∧
     (get_stats engW1).workflows_executed =
       engW1.execution_history.length ∧
     (get_stats engW1).workflows = dictKeys engW1.workflows ∧
     (dictContains engW1.workflows "W2" = false →
       (get_stats (define_workflow engW1 1 "W2" "wf two" []).1).workflows =
         (get_stats engW1).workflows ++ ["W2"]) ∧
     (dictContains engW1.workflows "W2" = true →
       (get_stats (define_workflow engW1 1 "W2" "wf two" []).1).workflows =
         (get_stats engW1).workflows)) ∧
    dictContains engW1.workflows "W2" = false ∧
    dictContains engW1.workflows "W1" = true ∧
    (get_stats (define_workflow engW1 1 "W1" "wf one again"
      [wfStepB]).1).workflows = (get_stats engW1).workflows :=
  ⟨C8_get_stats engW1 1 "W2" "wf two" [], rfl, rfl,
   (C8_get_stats engW1 1 "W1" "wf one again" [wfStepB]).2.2.2.2 rfl⟩

/-- C9: for every step of a run that is dispatched to an existing agent,
the task handed to that agent's `execute_task` is `stepTask` applied to the
supply value threaded to that step and to that very step (the third
component of `runStep` records the task handed over): it carries that
step's declared task type, that step's declared parameters (the empty
mapping when the step declares none), and initial status `PENDING`; it is
among the run's dispatched tasks, and the task ids of one run are pairwise
distinct, so its freshly drawn identifier differs from every other task's
identifier in the run. -/
theorem C9_task_freshness (agents : List (String × Agent)) (supply : Nat)
    (ss : List Step) (i : Nat) (hi : i < ss.length) (agent : Agent)
    (h : agentLookup agents (ss.get ⟨i, hi⟩).agent_id = some agent) :
    (runStep agents (runSteps agents supply (ss.take i)).1
        (ss.get ⟨i, hi⟩)).2.2 =
      some (stepTask (runSteps agents supply (ss.take i)).1
        (ss.get ⟨i, hi⟩)) ∧
    (stepTask (runSteps agents supply (ss.take i)).1
        (ss.get ⟨i, hi⟩)).task_type = (ss.get ⟨i, hi⟩).task_type ∧
    (stepTask (runSteps agents supply (ss.take i)).1
        (ss.get ⟨i, hi⟩)).parameters =
      (ss.get ⟨i, hi⟩).parameters.getD [] ∧
    (stepTask (runSteps agents supply (ss.take i)).1
        (ss.get ⟨i, hi⟩)).status = TaskStatus.pending ∧
    stepTask (runSteps agents supply (ss.take i)).1 (ss.get ⟨i, hi⟩) ∈
      (runSteps agents supply ss).2.2 ∧
    ((runSteps agents supply ss).2.2.map Task.task_id).Nodup := by
  refine ⟨?_, rfl, rfl, rfl,
    runSteps_task_mem agents supply ss i hi agent h,
    runSteps_task_ids_nodup agents supply ss⟩
  unfold runStep
  rw [h]

/-- C9 witness: in the run `[wfStepA, wfStepB]` against `oneAgent`, step 1
is dispatched to `agentA2`; the task handed over is `stepTask 0 wfStepB`
(step 0 targets a missing agent and draws nothing from the supply), it
carries step 1's task type and defaulted parameters, has status `PENDING`,
is in the run's dispatched tasks, and all task ids of the run are pairwise
distinct. -/
theorem C9_witness :
    1 < ([wfStepA, wfStepB] : List Step).length ∧
    agentLookup oneAgent wfStepB.agent_id = some agentA2 ∧
    ((runStep oneAgent 0 wfStepB).2.2 = some (stepTask 0 wfStepB) ∧
     (stepTask 0 wfStepB).task_type = wfStepB.task_type ∧
     (stepTask 0 wfStepB).parameters = wfStepB.parameters.getD [] ∧
     (stepTask 0 wfStepB).status = TaskStatus.pending ∧
     stepTask 0 wfStepB ∈ (runSteps oneAgent 0 [wfStepA, wfStepB]).2.2 ∧
     ((runSteps oneAgent 0 [wfStepA, wfStepB]).2.2.map
       Task.task_id).Nodup) :=
  ⟨by decide, rfl,
   C9_task_freshness oneAgent 0 [wfStepA, wfStepB] 1 (by decide) agentA2 rfl⟩

/-- C10: `register_agent` returns `True` for every agent, and registering
an agent whose id is already a key of the orchestrator's agent map replaces
the earlier agent (last registration wins): the map afterwards has the same
length and the same keys in the same order, maps that id to the new agent,
and maps every other key exactly as before. -/
theorem C10_register_agent (st : OrchestratorState) (agent : Agent)
    (h : dictContains st.agents agent.agent_id = true) :
    (∀ (st' : OrchestratorState) (a : Agent),
      (register_agent st' a).2 = true) ∧
    (register_agent st agent).1.agents.length = st.agents.length ∧
    dictKeys (register_agent st agent).1.agents = dictKeys st.agents ∧
    dictGet? (register_agent st agent).1.agents agent.agent_id =
      some agent ∧
    ∀ k, k ≠ agent.agent_id →
      dictGet? (register_agent st agent).1.agents k =
        dictGet? st.agents k :=
  ⟨fun _ _ => rfl,
   length_dictSet_of_contains st.agents agent.agent_id agent h,
   dictKeys_dictSet_of_contains st.agents agent.agent_id agent h,
   dictGet?_dictSet_self st.agents agent.agent_id agent,
   fun k hk =>
     dictGet?_dictSet_ne st.agents agent.agent_id k agent (Ne.symm hk)⟩

/-- C10 witness: re-registering id `"a2"` (as `agentA2v2`) on an
orchestrator that already holds `agentA2`. -/
theorem C10_witness :
    dictContains orch1.agents agentA2v2.agent_id = true ∧
    ((∀ (st' : OrchestratorState) (a : Agent),
      (register_agent st' a).2 = true) ∧
    (register_agent orch1 agentA2v2).1.agents.length =
      orch1.agents.length ∧
    dictKeys (register_agent orch1 agentA2v2).1.agents =
      dictKeys orch1.agents ∧
    dictGet? (register_agent orch1 agentA2v2).1.agents
      agentA2v2.agent_id = some agentA2v2 ∧
    ∀ k, k ≠ agentA2v2.agent_id →
      dictGet? (register_agent orch1 agentA2v2).1.agents k =
        dictGet? orch1.agents k) :=
  ⟨rfl, C10_register_agent orch1 agentA2v2 rfl⟩

end WorkflowPy
